import Mathlib

/-!
Verification of the instavideos-daily batch media-processing scripts.

The repository is a set of Python command-line scripts (`add_logo.py`,
`add_logo_to_images.py`, `extract_audio.py`, `make_circular.py`,
`make_video_circular.py`, `video_to_gif.py`).  This file shallowly embeds
the data model and the operations of those scripts: pure computations
(crop-box arithmetic, path-suffix handling, command construction) are
translated directly; calls to external tools (ffmpeg, the face detector)
are abstracted as parameters or recorded as events in a trace; images are
modelled as pixel functions.
-/

namespace InstaVideos

/-- An RGBA pixel; channel values are 0..255 bytes in the scripts. -/
structure RGBA where
  r : Nat
  g : Nat
  b : Nat
  a : Nat
deriving DecidableEq

/-- The fully transparent pixel `(0, 0, 0, 0)` used for backgrounds. -/
def transparentPx : RGBA := ⟨0, 0, 0, 0⟩

/-- An image: dimensions plus a pixel function (out-of-range coordinates are
simply never consulted by the operations below). -/
structure Img where
  w : Nat
  h : Nat
  px : Nat → Nat → RGBA

/-- A crop box `(left, top, right, bottom)` as computed by the scripts. -/
structure Box where
  left : Int
  top : Int
  right : Int
  bottom : Int
deriving DecidableEq

/-- Computes `int(face_size * 2.5)` for a nonnegative integer face size: the padding
factor hard-coded in `make_circular.py` (line 71) and the default
`crop_scale` of `make_video_circular.py`.  For nonnegative arguments Python's
truncation agrees with this integer division. -/
def cropSizeAt25 (face_size : Int) : Int := 5 * face_size / 2

/-- The face-centered square crop-box computation shared by
`make_circular.make_circular` (lines 71-95) and
`make_video_circular.make_video_circular` (lines 142-167).  `size0` is the
already-scaled face size `int(face_size * crop_scale)`.  Python's `//` on the
nonnegative quantities involved agrees with `Int` division. -/
def cropBox (w h cx cy size0 : Int) : Box :=
  let size := min size0 (min w h)
  let left := max 0 (cx - size / 2)
  let top := max 0 (cy - size / 2)
  let right := min w (left + size)
  let bottom := min h (top + size)
  let lr :=
    if right - left < size then
      if left = 0 then (left, min w size) else (max 0 (w - size), right)
    else (left, right)
  let tb :=
    if bottom - top < size then
      if top = 0 then (top, min h size) else (max 0 (h - size), bottom)
    else (top, bottom)
  let size2 := min (lr.2 - lr.1) (tb.2 - tb.1)
  ⟨lr.1, tb.1, lr.1 + size2, tb.1 + size2⟩

/-- The center-crop fallback used when no face is detected
(`make_circular.py` lines 100-104, `make_video_circular.py` lines 172-176). -/
def centerCropBox (w h : Int) : Box :=
  let size := min w h
  let left := (w - size) / 2
  let top := (h - size) / 2
  ⟨left, top, left + size, top + size⟩

/-- Helper: the crop box is a square inside the image whenever the scaled
face size is at least 1. -/
theorem cropBox_bounds (w h cx cy size0 : Int) (hw : 1 ≤ w) (hh : 1 ≤ h)
    (hcx0 : 0 ≤ cx) (hcx : cx < w) (hcy0 : 0 ≤ cy) (hcy : cy < h)
    (hs : 1 ≤ size0) :
    0 ≤ (cropBox w h cx cy size0).left ∧
    (cropBox w h cx cy size0).left < (cropBox w h cx cy size0).right ∧
    (cropBox w h cx cy size0).right ≤ w ∧
    0 ≤ (cropBox w h cx cy size0).top ∧
    (cropBox w h cx cy size0).top < (cropBox w h cx cy size0).bottom ∧
    (cropBox w h cx cy size0).bottom ≤ h ∧
    (cropBox w h cx cy size0).right - (cropBox w h cx cy size0).left =
      (cropBox w h cx cy size0).bottom - (cropBox w h cx cy size0).top := by
  unfold cropBox
  dsimp only
  split_ifs <;> omega

/-- C8: for every image of width ≥ 1 and height ≥ 1 and every detected face
(center inside the image, positive face size), the face-centered crop-box
computation with the scripts' 2.5 padding factor yields a square region
inside the image: 0 ≤ left < right ≤ width, 0 ≤ top < bottom ≤ height, and
right − left = bottom − top. -/
theorem crop_box_square_in_bounds (w h cx cy fs : Int) (hw : 1 ≤ w)
    (hh : 1 ≤ h) (hcx0 : 0 ≤ cx) (hcx : cx < w) (hcy0 : 0 ≤ cy) (hcy : cy < h)
    (hfs : 1 ≤ fs) :
    0 ≤ (cropBox w h cx cy (cropSizeAt25 fs)).left ∧
    (cropBox w h cx cy (cropSizeAt25 fs)).left <
      (cropBox w h cx cy (cropSizeAt25 fs)).right ∧
    (cropBox w h cx cy (cropSizeAt25 fs)).right ≤ w ∧
    0 ≤ (cropBox w h cx cy (cropSizeAt25 fs)).top ∧
    (cropBox w h cx cy (cropSizeAt25 fs)).top <
      (cropBox w h cx cy (cropSizeAt25 fs)).bottom ∧
    (cropBox w h cx cy (cropSizeAt25 fs)).bottom ≤ h ∧
    (cropBox w h cx cy (cropSizeAt25 fs)).right -
        (cropBox w h cx cy (cropSizeAt25 fs)).left =
      (cropBox w h cx cy (cropSizeAt25 fs)).bottom -
        (cropBox w h cx cy (cropSizeAt25 fs)).top := by
  have h1 : 1 ≤ cropSizeAt25 fs := by unfold cropSizeAt25; omega
  exact cropBox_bounds w h cx cy _ hw hh hcx0 hcx hcy0 hcy h1

/-- Witness for C8 at a concrete image and face. -/
theorem crop_box_square_in_bounds_witness :
    0 ≤ (cropBox 100 80 50 40 (cropSizeAt25 10)).left ∧
    (cropBox 100 80 50 40 (cropSizeAt25 10)).left <
      (cropBox 100 80 50 40 (cropSizeAt25 10)).right ∧
    (cropBox 100 80 50 40 (cropSizeAt25 10)).right ≤ 100 ∧
    0 ≤ (cropBox 100 80 50 40 (cropSizeAt25 10)).top ∧
    (cropBox 100 80 50 40 (cropSizeAt25 10)).top <
      (cropBox 100 80 50 40 (cropSizeAt25 10)).bottom ∧
    (cropBox 100 80 50 40 (cropSizeAt25 10)).bottom ≤ 80 ∧
    (cropBox 100 80 50 40 (cropSizeAt25 10)).right -
        (cropBox 100 80 50 40 (cropSizeAt25 10)).left =
      (cropBox 100 80 50 40 (cropSizeAt25 10)).bottom -
        (cropBox 100 80 50 40 (cropSizeAt25 10)).top :=
  crop_box_square_in_bounds 100 80 50 40 10 (by decide) (by decide)
    (by decide) (by decide) (by decide) (by decide) (by decide)

/-! ## Image operations of the circular-crop scripts -/

/-- Pixel membership in the filled ellipse drawn by
`draw.ellipse((0, 0, output_size, output_size), fill=255)`
(`make_circular.py` line 116, `make_video_circular.py` line 86): the pixel,
sampled at its center, lies inside the disc inscribed in the
`s × s` square. -/
def inDisc (s x y : Nat) : Bool :=
  ((2 * x + 1 : Int) - s) ^ 2 + ((2 * y + 1 : Int) - s) ^ 2 ≤ (s : Int) ^ 2

/-- The alpha value installed by `putalpha(mask)`: 255 inside the ellipse,
0 outside. -/
def maskAlpha (s x y : Nat) : Nat := if inDisc s x y then 255 else 0

/-- Cropping to a box: `img.crop((left, top, right, bottom))` in
`make_circular.py` line 108 and the `frame[top:bottom, left:right]` slice in
`make_video_circular.py` line 69. -/
def cropImg (img : Img) (b : Box) : Img :=
  { w := (b.right - b.left).toNat
    h := (b.bottom - b.top).toNat
    px := fun x y => img.px (x + b.left.toNat) (y + b.top.toNat) }

/-- BGR → RGB channel swap (`cv2.cvtColor(cropped, cv2.COLOR_BGR2RGB)`,
`make_video_circular.py` line 72). -/
def bgrToRgb (img : Img) : Img :=
  { img with px := fun x y => let p := img.px x y; ⟨p.b, p.g, p.r, p.a⟩ }

/-- Resizing to `output_size × output_size`
(`resize((output_size, output_size), Image.LANCZOS)`).  The LANCZOS
resampling kernel is abstracted by coordinate sampling; the claims depend
only on the output dimensions, never on resampled pixel values. -/
def resizeImg (img : Img) (s : Nat) : Img :=
  { w := s, h := s, px := fun x y => img.px (x * img.w / s) (y * img.h / s) }

/-- Pasting the (square, `s × s`) image at `(0, 0)` onto a fully transparent
`s × s` RGBA background and then replacing the alpha channel with the
circular mask (`make_circular.py` lines 113-121, `make_video_circular.py`
lines 83-91). -/
def applyCircularMask (img : Img) (s : Nat) : Img :=
  { w := s
    h := s
    px := fun x y =>
      let base := if x < img.w ∧ y < img.h then img.px x y else transparentPx
      ⟨base.r, base.g, base.b, maskAlpha s x y⟩ }

/-- The per-image crop/resize/mask pipeline of `make_circular.make_circular`
(lines 107-121). -/
def makeCircularImage (img : Img) (b : Box) (s : Nat) : Img :=
  applyCircularMask (resizeImg (cropImg img b) s) s

/-- Models `process_single_frame` (`make_video_circular.py` lines 51-97): decode,
crop to the shared box, convert BGR→RGB, resize, apply the circular mask,
and save under the index-determined name `frame_%06d.png`.  The result pair
models (frame number = output filename, frame content). -/
def process_single_frame (frame : Img) (frame_number : Nat) (crop_coords : Box)
    (output_size : Nat) : Nat × Img :=
  (frame_number,
    applyCircularMask (resizeImg (bgrToRgb (cropImg frame crop_coords))
      output_size) output_size)

/-! ## The make_video_circular pipeline -/

/-- A detected face: center coordinates and size, as returned by
`detect_face_in_frame` / `detect_face`. -/
structure FaceInfo where
  cx : Int
  cy : Int
  size : Int
deriving DecidableEq

/-- Crop-box selection of `make_video_circular` (lines 139-177): the
face-centered box when a face was detected, otherwise the center crop.
`scaledSize` is `fun fs => int(fs * crop_scale)`. -/
def faceBox (w h : Int) (scaledSize : Int → Int) (info : Option FaceInfo) :
    Box :=
  match info with
  | some f => cropBox w h f.cx f.cy (scaledSize f.size)
  | none => centerCropBox w h

/-- The frame-level pipeline of `make_video_circular` (lines 129-221):
read the first frame (failing when there is none), run face detection on it
alone, compute one crop box, and map `process_single_frame` with that same
box over all frames (the parallel pool map).  The subsequent ffmpeg
re-encode consumes exactly these `frame_%06d.png` outputs. -/
def make_video_circular_frames (detect : Img → Option FaceInfo)
    (scaledSize : Int → Int) (w h : Int) (output_size : Nat)
    (frames : List Img) : Option (List (Nat × Img)) :=
  match frames with
  | [] => none
  | f0 :: _ =>
    let crop := faceBox w h scaledSize (detect f0)
    some (frames.enum.map fun p =>
      process_single_frame p.2 p.1 crop output_size)

/-- The processed-frame list for a fixed crop box, in input frame order. -/
def processedFrames (frames : List Img) (crop : Box) (s : Nat) :
    List (Nat × Img) :=
  frames.enum.map fun p => process_single_frame p.2 p.1 crop s

/-- C1: the circular-video pipeline detects a face once, on the first frame
only, computes a single crop box from that one detection, and processes
every frame with that same box; two detectors that agree on the first frame
(however much they differ on later frames) produce identical pipeline
output, so face detection is never re-run on later frames. -/
theorem make_video_circular_single_detection (d1 d2 : Img → Option FaceInfo)
    (scaledSize : Int → Int) (w h : Int) (s : Nat) (f0 : Img)
    (rest : List Img) (hd : d1 f0 = d2 f0) :
    make_video_circular_frames d1 scaledSize w h s (f0 :: rest) =
      some (processedFrames (f0 :: rest)
        (faceBox w h scaledSize (d1 f0)) s) ∧
    make_video_circular_frames d1 scaledSize w h s (f0 :: rest) =
      make_video_circular_frames d2 scaledSize w h s (f0 :: rest) := by
  refine ⟨rfl, ?_⟩
  simp only [make_video_circular_frames, hd]

/-- Witness for C1: a one-frame video, a detector finding no face, and a
second detector that differs on every frame except the first. -/
theorem make_video_circular_single_detection_witness :
    make_video_circular_frames (fun _ => none) (fun n => 5 * n / 2) 8 8 4
        [⟨0, 0, fun _ _ => transparentPx⟩] =
      some (processedFrames [⟨0, 0, fun _ _ => transparentPx⟩]
        (faceBox 8 8 (fun n => 5 * n / 2) none) 4) ∧
    make_video_circular_frames (fun _ => none) (fun n => 5 * n / 2) 8 8 4
        [⟨0, 0, fun _ _ => transparentPx⟩] =
      make_video_circular_frames
        (fun img => if img.w = 0 then none else some ⟨1, 1, 1⟩)
        (fun n => 5 * n / 2) 8 8 4 [⟨0, 0, fun _ _ => transparentPx⟩] :=
  make_video_circular_single_detection (fun _ => none)
    (fun img => if img.w = 0 then none else some ⟨1, 1, 1⟩)
    (fun n => 5 * n / 2) 8 8 4 ⟨0, 0, fun _ _ => transparentPx⟩ [] rfl

/-- Helper: for output sizes of at least 4 pixels, the four corner pixels of
the square lie outside the inscribed disc. -/
theorem corner_outside_disc (s x y : Nat) (hs : 4 ≤ s)
    (hx : x = 0 ∨ x = s - 1) (hy : y = 0 ∨ y = s - 1) :
    inDisc s x y = false := by
  have h4 : (4 : Int) ≤ (s : Int) := by exact_mod_cast hs
  have hc : ((s - 1 : Nat) : Int) = (s : Int) - 1 :=
    Nat.cast_sub (by omega)
  have hmul : (0 : Int) ≤ ((s : Int) - 4) * (s : Int) :=
    mul_nonneg (by linarith) (by linarith)
  rcases hx with rfl | rfl <;> rcases hy with rfl | rfl <;>
    simp only [inDisc, hc, decide_eq_false_iff_not, not_le] <;>
    push_cast <;> nlinarith [hmul]

/-- C7: the circular-mask step clips the square frame into a circle with
transparent corners: both per-image (`make_circular`) and per-frame
(`process_single_frame`) outputs are squares of the requested output size,
their alpha channel is exactly the filled-ellipse mask (opaque inside the
inscribed disc, transparent outside it), pasted over a fully transparent
background, and (for any size of at least 4 pixels) the four corner pixels
are fully transparent. -/
theorem circular_mask_clips_square (img : Img) (b : Box) (n s x y : Nat)
    (hs : 4 ≤ s) :
    (process_single_frame img n b s).2.w = s ∧
    (process_single_frame img n b s).2.h = s ∧
    (makeCircularImage img b s).w = s ∧
    (makeCircularImage img b s).h = s ∧
    ((process_single_frame img n b s).2.px x y).a =
      (if inDisc s x y then 255 else 0) ∧
    ((makeCircularImage img b s).px x y).a =
      (if inDisc s x y then 255 else 0) ∧
    maskAlpha s 0 0 = 0 ∧ maskAlpha s (s - 1) 0 = 0 ∧
    maskAlpha s 0 (s - 1) = 0 ∧ maskAlpha s (s - 1) (s - 1) = 0 := by
  have c00 := corner_outside_disc s 0 0 hs (Or.inl rfl) (Or.inl rfl)
  have c10 := corner_outside_disc s (s - 1) 0 hs (Or.inr rfl) (Or.inl rfl)
  have c01 := corner_outside_disc s 0 (s - 1) hs (Or.inl rfl) (Or.inr rfl)
  have c11 := corner_outside_disc s (s - 1) (s - 1) hs (Or.inr rfl)
    (Or.inr rfl)
  exact ⟨rfl, rfl, rfl, rfl, rfl, rfl, by simp [maskAlpha, c00],
    by simp [maskAlpha, c10], by simp [maskAlpha, c01],
    by simp [maskAlpha, c11]⟩

/-- Witness for C7 at the default 500-pixel output size. -/
theorem circular_mask_clips_square_witness :
    (process_single_frame ⟨1, 1, fun _ _ => transparentPx⟩ 0 ⟨0, 0, 1, 1⟩
      500).2.w = 500 ∧
    (process_single_frame ⟨1, 1, fun _ _ => transparentPx⟩ 0 ⟨0, 0, 1, 1⟩
      500).2.h = 500 ∧
    (makeCircularImage ⟨1, 1, fun _ _ => transparentPx⟩ ⟨0, 0, 1, 1⟩
      500).w = 500 ∧
    (makeCircularImage ⟨1, 1, fun _ _ => transparentPx⟩ ⟨0, 0, 1, 1⟩
      500).h = 500 ∧
    ((process_single_frame ⟨1, 1, fun _ _ => transparentPx⟩ 0 ⟨0, 0, 1, 1⟩
      500).2.px 250 250).a = (if inDisc 500 250 250 then 255 else 0) ∧
    ((makeCircularImage ⟨1, 1, fun _ _ => transparentPx⟩ ⟨0, 0, 1, 1⟩
      500).px 250 250).a = (if inDisc 500 250 250 then 255 else 0) ∧
    maskAlpha 500 0 0 = 0 ∧ maskAlpha 500 (500 - 1) 0 = 0 ∧
    maskAlpha 500 0 (500 - 1) = 0 ∧ maskAlpha 500 (500 - 1) (500 - 1) = 0 :=
  circular_mask_clips_square ⟨1, 1, fun _ _ => transparentPx⟩ ⟨0, 0, 1, 1⟩
    0 500 250 250 (by decide)

/-! ## Order independence of the parallel frame writes (C6) -/

/-- One worker's effect on the frames directory: saving the processed frame
under the name determined solely by its frame number overwrites that name
and nothing else. -/
def writeStep (st : Nat → Option Img) (p : Nat × Img) : Nat → Option Img :=
  fun k => if k = p.1 then some p.2 else st k

/-- The frames-directory contents after all workers have completed, applied
in completion order (`frame number ↦ saved content`). -/
def writeFrames (items : List (Nat × Img)) : Nat → Option Img :=
  items.foldl writeStep (fun _ => none)

/-- Helper: folding the per-frame writes over any permutation of a list with
pairwise-distinct frame numbers yields the same directory contents. -/
theorem foldl_writeStep_perm {items1 items2 : List (Nat × Img)}
    (h : items1.Perm items2) :
    (items1.map Prod.fst).Nodup →
      ∀ st, items1.foldl writeStep st = items2.foldl writeStep st := by
  induction h with
  | nil => exact fun _ _ => rfl
  | cons x p ih =>
    intro hnd st
    simp only [List.foldl_cons]
    exact ih (List.Nodup.of_cons hnd) (writeStep st x)
  | swap x y l =>
    intro hnd st
    have hne : y.1 ≠ x.1 := by
      intro hEq
      exact (List.nodup_cons.mp hnd).1 (hEq ▸ List.mem_cons_self _ _)
    simp only [List.foldl_cons]
    congr 1
    funext k
    simp only [writeStep]
    by_cases h1 : k = x.1 <;> by_cases h2 : k = y.1
    · exact absurd (h1.symm.trans h2) (Ne.symm hne)
    · simp [h1, h2, Ne.symm hne]
    · simp [h1, h2, hne]
    · simp [h1, h2]
  | trans p1 p2 ih1 ih2 =>
    intro hnd st
    rw [ih1 hnd st, ih2 ((p1.map Prod.fst).nodup_iff.mp hnd) st]

/-- C6: the frames written by the parallel pool do not depend on worker
completion order: each output name is a function only of the frame's input
index, so any two completion orders of the processed-frame jobs leave
identical frames-directory contents, and the re-encode (which reads frames
by the `frame_%06d` index pattern) sees the input frame order. -/
theorem frame_files_order_independent (frames : List Img) (crop : Box)
    (s : Nat) (order1 order2 : List (Nat × Img))
    (h1 : order1.Perm (processedFrames frames crop s))
    (h2 : order2.Perm (processedFrames frames crop s)) :
    writeFrames order1 = writeFrames order2 := by
  have hkeys : (processedFrames frames crop s).map Prod.fst =
      frames.enum.map Prod.fst := by
    unfold processedFrames
    rw [List.map_map]
    rfl
  have hnd : (order1.map Prod.fst).Nodup := by
    have hp := h1.map Prod.fst
    rw [hkeys] at hp
    exact hp.nodup_iff.mpr (List.nodup_enum_map_fst frames)
  exact foldl_writeStep_perm (h1.trans h2.symm) hnd (fun _ => none)

/-- Witness for C6: reversed completion order over a two-frame video. -/
theorem frame_files_order_independent_witness :
    writeFrames ((processedFrames
        [⟨1, 1, fun _ _ => transparentPx⟩, ⟨1, 1, fun _ _ => transparentPx⟩]
        ⟨0, 0, 1, 1⟩ 4).reverse) =
      writeFrames (processedFrames
        [⟨1, 1, fun _ _ => transparentPx⟩, ⟨1, 1, fun _ _ => transparentPx⟩]
        ⟨0, 0, 1, 1⟩ 4) :=
  frame_files_order_independent _ ⟨0, 0, 1, 1⟩ 4 _ _
    (List.reverse_perm _) (List.Perm.refl _)

/-! ## Temporary-directory lifecycle of make_video_circular (C3) -/

/-- The outcome of each fallible step of one `make_video_circular` run. -/
structure VideoRunEnv where
  /-- Outcome of `cv2.VideoCapture(input_path).isOpened()` (line 117). -/
  capOpened : Bool
  /-- the first `cap.read()` succeeded (line 130). -/
  firstFrameOk : Bool
  /-- an exception was raised between `tempfile.mkdtemp()` (line 186) and
  `shutil.rmtree(temp_dir)` (line 247): a decode error, a worker crash, a
  missing ffmpeg binary, ... -/
  excAfterTempDir : Bool
  /-- the ffmpeg re-encode exited with status 0 (line 249). -/
  ffmpegOk : Bool

/-- What a run reports and what it leaves on disk. -/
structure VideoRunResult where
  success : Bool
  tempDirCreated : Bool
  tempDirRemoved : Bool
deriving DecidableEq

/-- Control flow of `make_video_circular` (lines 113-261) restricted to the
temp-dir lifecycle: the early returns before `mkdtemp` create nothing; the
`except` block (lines 257-261) prints and returns `False` without removing
`temp_dir`; on the straight-line path `shutil.rmtree` (line 247) runs before
the `returncode` check, so it covers both the success and the
ffmpeg-failure return. -/
def make_video_circular_run (env : VideoRunEnv) : VideoRunResult :=
  if !env.capOpened then ⟨false, false, false⟩
  else if !env.firstFrameOk then ⟨false, false, false⟩
  else if env.excAfterTempDir then ⟨false, true, false⟩
  else ⟨env.ffmpegOk, true, true⟩

/-- C3 counterexample: a run in which an exception is raised after the
temporary directory is created (e.g. a frame fails to decode) ends with the
temporary directory still on disk: the `except` path performs no cleanup. -/
theorem temp_dir_leak_counterexample :
    (make_video_circular_run ⟨true, true, true, true⟩).tempDirCreated = true ∧
    (make_video_circular_run ⟨true, true, true, true⟩).tempDirRemoved =
      false :=
  ⟨rfl, rfl⟩

/-- C3 (amended): every run that creates the temporary directory and is not
aborted by an exception removes it before returning, on both the success
path and the ffmpeg-failure path. -/
theorem temp_dir_removed_unless_exception (env : VideoRunEnv)
    (hexc : env.excAfterTempDir = false) :
    (make_video_circular_run env).tempDirCreated = true →
      (make_video_circular_run env).tempDirRemoved = true := by
  rcases env with ⟨c, f, e, ok⟩
  cases c <;> cases f <;> cases ok <;>
    simp_all [make_video_circular_run]

/-- Witness for C3 (amended) on the ffmpeg-failure path. -/
theorem temp_dir_removed_unless_exception_witness :
    (make_video_circular_run ⟨true, true, false, false⟩).tempDirRemoved =
      true :=
  temp_dir_removed_unless_exception ⟨true, true, false, false⟩ rfl rfl

/-! ## Two-pass palette GIF encoding (C5) -/

/-- The externally visible steps of `convert_video_to_gif`
(`video_to_gif.py` lines 85-124): the palette-generation ffmpeg run (with
its `palettegen=max_colors=` value), the palette-use ffmpeg run (with its
dither mode), and the deletion of the intermediate palette file. -/
inductive GifStep where
  | ffmpegPalettegen (maxColors : Nat)
  | ffmpegPaletteuse (dither : String)
  | removePalette
deriving DecidableEq

/-- The `quality_settings` table (`video_to_gif.py` lines 41-45):
`(colors, dither)` per quality level. -/
def quality_settings (q : String) : Option (Nat × String) :=
  if q = "low" then some (128, "bayer:bayer_scale=3")
  else if q = "medium" then some (256, "bayer:bayer_scale=5")
  else if q = "high" then some (256, "floyd_steinberg")
  else none

/-- An invalid quality falls back to medium (lines 47-49). -/
def resolveQuality (q : String) : String :=
  if (quality_settings q).isSome then q else "medium"

/-- The settings actually used for a requested quality. -/
def settingsOf (q : String) : Nat × String :=
  (quality_settings (resolveQuality q)).getD (256, "bayer:bayer_scale=5")

/-- Models `convert_video_to_gif` as a step trace plus result: generate palette
(return `False` if that fails), then create the GIF with `paletteuse`, then
delete the palette file (line 123-124, before the `returncode` check), then
return the second pass's success. -/
def convert_video_to_gif (quality : String) (pass1Ok pass2Ok : Bool) :
    List GifStep × Bool :=
  let s := settingsOf quality
  if !pass1Ok then ([GifStep.ffmpegPalettegen s.1], false)
  else ([GifStep.ffmpegPalettegen s.1, GifStep.ffmpegPaletteuse s.2,
          GifStep.removePalette], pass2Ok)

/-- C5: `convert_video_to_gif` performs two-pass palette encoding: 128
colors for low quality and 256 for medium and high; for every input the
first pass generates the palette, the second quantizes frames against it,
and the palette file is deleted before the function can return success
(on the first-pass failure path the function stops after the single palette
invocation with a failure result). -/
theorem gif_two_pass_palette (quality : String) (pass2Ok : Bool) :
    (settingsOf "low").1 = 128 ∧ (settingsOf "medium").1 = 256 ∧
    (settingsOf "high").1 = 256 ∧
    (convert_video_to_gif quality true pass2Ok).1 =
      [GifStep.ffmpegPalettegen (settingsOf quality).1,
        GifStep.ffmpegPaletteuse (settingsOf quality).2,
        GifStep.removePalette] ∧
    (convert_video_to_gif quality true pass2Ok).2 = pass2Ok ∧
    (convert_video_to_gif quality false pass2Ok).1 =
      [GifStep.ffmpegPalettegen (settingsOf quality).1] ∧
    (convert_video_to_gif quality false pass2Ok).2 = false :=
  ⟨rfl, rfl, rfl, rfl, rfl, rfl, rfl⟩

/-! ## Logo overlay scripts (C9, and the C2 invocation count) -/

/-- The `positions` dictionary of `add_logo.py` / `add_logo_to_images.py`
(lines 26-31): overlay coordinates per named corner, `none` for any other
string. -/
def positionCoord (margin : Int) (pos : String) : Option String :=
  if pos = "top-right" then
    some ("W-w-" ++ toString margin ++ ":" ++ toString margin)
  else if pos = "top-left" then
    some (toString margin ++ ":" ++ toString margin)
  else if pos = "bottom-right" then
    some ("W-w-" ++ toString margin ++ ":H-h-" ++ toString margin)
  else if pos = "bottom-left" then
    some (toString margin ++ ":H-h-" ++ toString margin)
  else none

/-- The fallback `if position not in positions: position = "top-right"` (lines 33-35 of
both scripts). -/
def resolvePosition (pos : String) : String :=
  if (positionCoord 0 pos).isSome then pos else "top-right"

/-- The ffmpeg overlay filter string shared by both logo scripts
(line 44 / line 43). -/
def overlayFilter (margin : Int) (logo_scale pos : String) : String :=
  "[1:v]scale=iw*" ++ logo_scale ++ ":-1[logo];[0:v][logo]overlay=" ++
    (positionCoord margin (resolvePosition pos)).getD ""

/-- The ffmpeg command of `add_logo_to_video` (`add_logo.py` lines 39-48). -/
def add_logo_cmd (video logo output pos : String) (margin : Int)
    (logo_scale : String) : List String :=
  ["ffmpeg", "-i", video, "-i", logo, "-filter_complex",
    overlayFilter margin logo_scale pos, "-codec:a", "copy", "-y", output]

/-- The ffmpeg command of `add_logo_to_image` (`add_logo_to_images.py`
lines 38-46); identical except that it passes no audio-copy flags. -/
def add_logo_image_cmd (image logo output pos : String) (margin : Int)
    (logo_scale : String) : List String :=
  ["ffmpeg", "-i", image, "-i", logo, "-filter_complex",
    overlayFilter margin logo_scale pos, "-y", output]

/-- Models `add_logo_to_video` (lines 12-60): build the one ffmpeg command, run it
(`run` abstracts `subprocess.run(..., check=True)` succeeding), return the
invocation trace and the per-file result. -/
def add_logo_to_video (run : List String → Bool) (video logo output pos :
    String) (margin : Int) (logo_scale : String) :
    List (List String) × Bool :=
  let cmd := add_logo_cmd video logo output pos margin logo_scale
  ([cmd], run cmd)

/-- Models `add_logo_to_image` (`add_logo_to_images.py` lines 12-55). -/
def add_logo_to_image (run : List String → Bool) (image logo output pos :
    String) (margin : Int) (logo_scale : String) :
    List (List String) × Bool :=
  let cmd := add_logo_image_cmd image logo output pos margin logo_scale
  ([cmd], run cmd)

/-- C9: an invalid position string never fails `add_logo_to_video` or
`add_logo_to_image`: both treat it exactly as `top-right`, so the whole
outcome (the command issued and the per-file result) equals the outcome
with position = top-right. -/
theorem invalid_position_defaults_top_right (run : List String → Bool)
    (a logo output pos : String) (margin : Int) (logo_scale : String)
    (hpos : pos ∉ ["top-right", "top-left", "bottom-right", "bottom-left"]) :
    add_logo_to_video run a logo output pos margin logo_scale =
      add_logo_to_video run a logo output "top-right" margin logo_scale ∧
    add_logo_to_image run a logo output pos margin logo_scale =
      add_logo_to_image run a logo output "top-right" margin logo_scale := by
  simp only [List.mem_cons, List.not_mem_nil, or_false, not_or] at hpos
  obtain ⟨h1, h2, h3, h4⟩ := hpos
  have hres : resolvePosition pos = resolvePosition "top-right" := by
    simp [resolvePosition, positionCoord, h1, h2, h3, h4]
  constructor <;>
    simp [add_logo_to_video, add_logo_to_image, add_logo_cmd,
      add_logo_image_cmd, overlayFilter, hres]

/-- Witness for C9 at the invalid position `center`. -/
theorem invalid_position_defaults_top_right_witness :
    add_logo_to_video (fun _ => true) "v.mp4" "logo.png" "out.mp4" "center"
        10 "0.15" =
      add_logo_to_video (fun _ => true) "v.mp4" "logo.png" "out.mp4"
        "top-right" 10 "0.15" ∧
    add_logo_to_image (fun _ => true) "v.mp4" "logo.png" "out.mp4" "center"
        10 "0.15" =
      add_logo_to_image (fun _ => true) "v.mp4" "logo.png" "out.mp4"
        "top-right" 10 "0.15" :=
  invalid_position_defaults_top_right (fun _ => true) "v.mp4" "logo.png"
    "out.mp4" "center" 10 "0.15" (by decide)

/-! ## Per-file success counting (C4) -/

/-- The reporting loop shared verbatim by `process_directory` in
`add_logo.py` (lines 112-120), `add_logo_to_images.py` (107-114),
`extract_audio.py` (151-163), `video_to_gif.py` (182-194),
`make_circular.py` (171-188) and `make_video_circular.py` (308-317):
`success_count` starts at 0 and is incremented exactly when the per-file
call returns `True`; the final print reports `success_count` out of the
number of discovered files. -/
def process_directory_report (proc : String → Bool) (files : List String) :
    Nat × Nat :=
  (files.foldl (fun acc f => if proc f then acc + 1 else acc) 0,
    files.length)

/-- Helper: the incrementing fold counts exactly the files whose per-file
call returns true. -/
theorem foldl_success_count (proc : String → Bool) (files : List String) :
    ∀ acc : Nat,
      files.foldl (fun a f => if proc f then a + 1 else a) acc =
        acc + (files.filter (fun f => proc f)).length := by
  induction files with
  | nil => intro acc; simp
  | cons f fs ih =>
    intro acc
    by_cases h : proc f
    · simp [h, ih]
      omega
    · simp [h, ih]

/-- C4: after processing a directory with `n` discovered files, every
script reports exactly `k` successes out of `n`, where `k` counts precisely
the files whose per-file processing function returned `True`. -/
theorem per_file_success_counts (proc : String → Bool)
    (files : List String) :
    process_directory_report proc files =
      ((files.filter (fun f => proc f)).length, files.length) := by
  unfold process_directory_report
  rw [foldl_success_count proc files 0, Nat.zero_add]

/-! ## PNG output path of make_circular (C10) -/

/-- Computes `str.rfind('.')` on a file name: the highest index holding a dot. -/
def rfindDot : List Char → Option Nat
  | [] => none
  | c :: cs =>
    match rfindDot cs with
    | some i => some (i + 1)
    | none => if c = '.' then some 0 else none

/-- Python `PurePath.suffix`: the name from its last dot on, when that dot is
neither the leading nor the final character; empty otherwise. -/
def pySuffix (name : List Char) : List Char :=
  match rfindDot name with
  | some i => if 0 < i ∧ i < name.length - 1 then name.drop i else []
  | none => []

/-- Python `PurePath.with_suffix`: drop the current suffix, append the new one;
raises (`none`, in which case `make_circular` returns failure) on an empty
name. -/
def pyWithSuffix (name sfx : List Char) : Option (List Char) :=
  if name = [] then none
  else some (name.take (name.length - (pySuffix name).length) ++ sfx)

/-- Output-path normalization of `make_circular` (lines 123-128): when the
requested path's suffix is not `.png` case-insensitively, replace it with
`.png`; the result is the name passed to `output.save(..., 'PNG')`. -/
def makeCircularSavedName (output : List Char) : Option (List Char) :=
  if (pySuffix output).map Char.toLower = ".png".toList then some output
  else pyWithSuffix output ".png".toList

/-- Helper: the last dot of `p ++ ".png"` sits exactly at index `p.length`. -/
theorem rfindDot_append_png :
    ∀ p : List Char, rfindDot (p ++ ".png".toList) = some p.length
  | [] => by decide
  | c :: p => by
    have ih := rfindDot_append_png p
    rw [show ".png".toList = ['.', 'p', 'n', 'g'] from rfl] at ih ⊢
    simp only [List.cons_append, rfindDot, List.append_eq]
    rw [ih]
    simp

/-- Helper: appending `.png` to a nonempty name yields suffix `.png`. -/
theorem pySuffix_append_png (p : List Char) (hp : p ≠ []) :
    pySuffix (p ++ ".png".toList) = ".png".toList := by
  have h := rfindDot_append_png p
  have hlen : 0 < p.length := List.length_pos.mpr hp
  simp only [pySuffix, h]
  rw [if_pos ⟨hlen, by simp⟩]
  exact List.drop_left p _

/-- Helper: the suffix is a proper part of a nonempty name. -/
theorem pySuffix_length_lt (name : List Char) (h : name ≠ []) :
    (pySuffix name).length < name.length := by
  have hlen : 0 < name.length := List.length_pos.mpr h
  unfold pySuffix
  cases hf : rfindDot name with
  | none => simpa using hlen
  | some i =>
    dsimp only
    split_ifs with hc
    · simp only [List.length_drop]
      omega
    · simpa using hlen

/-- C10: whatever is actually saved by a successful `make_circular` run has
a `.png` suffix (case-insensitively), and when the requested path's suffix
is not `.png` the saved name is the requested name with its suffix replaced
by `.png`. -/
theorem make_circular_saves_png (output saved : List Char)
    (hsave : makeCircularSavedName output = some saved) :
    (pySuffix saved).map Char.toLower = ".png".toList ∧
    ((pySuffix output).map Char.toLower ≠ ".png".toList →
      saved = output.take (output.length - (pySuffix output).length) ++
        ".png".toList) := by
  unfold makeCircularSavedName at hsave
  split_ifs at hsave with hpng
  · obtain rfl : output = saved := Option.some.inj hsave
    exact ⟨hpng, fun hne => absurd hpng hne⟩
  · unfold pyWithSuffix at hsave
    split_ifs at hsave with hempty
    obtain rfl := Option.some.inj hsave
    have hlt := pySuffix_length_lt output hempty
    have htake : output.take (output.length - (pySuffix output).length) ≠
        [] := by
      rw [Ne, List.take_eq_nil_iff]
      push_neg
      constructor
      · omega
      · exact hempty
    refine ⟨?_, fun _ => rfl⟩
    rw [pySuffix_append_png _ htake]
    decide

/-- Witness for C10: requesting `photo.jpg` saves `photo.png`. -/
theorem make_circular_saves_png_witness :
    (pySuffix "photo.png".toList).map Char.toLower = ".png".toList ∧
    ((pySuffix "photo.jpg".toList).map Char.toLower ≠ ".png".toList →
      "photo.png".toList = ("photo.jpg".toList).take
          (("photo.jpg".toList).length -
            (pySuffix "photo.jpg".toList).length) ++ ".png".toList) :=
  make_circular_saves_png "photo.jpg".toList "photo.png".toList (by decide)

/-! ## Input discovery and per-input invocations (C2) -/

/-- A file name as its character list (Python string). -/
abbrev FileName := List Char

/-- A path relative to the scanned input directory, as its component list;
the final component is the file name.  `iterdir`/`glob` see only paths of
length 1, `rglob` sees every depth. -/
abbrev RelPath := List FileName

/-- The file name of a relative path. -/
def lastComp (p : RelPath) : FileName := p.getLastD []

/-- Python's `sub in s` substring test. -/
def containsSub (sub : List Char) : List Char → Bool
  | [] => sub.isEmpty
  | c :: rest => sub.isPrefixOf (c :: rest) || containsSub sub rest

/-- Matching of `glob(f'*{ext}')` together with its `ext.upper()` twin: the
name ends with the extension in either case.  The per-extension
accumulation order of the Python loops is abstracted; the claims concern
which files are discovered, not their order. -/
def globExtMatch (exts : List FileName) (name : FileName) : Bool :=
  exts.any fun e => e.isSuffixOf name || (e.map Char.toUpper).isSuffixOf name

/-- Membership test `f.suffix.lower() in video_extensions` used with
`iterdir` by the logo scripts. -/
def suffixLowerIn (exts : List FileName) (name : FileName) : Bool :=
  exts.contains ((pySuffix name).map Char.toLower)

/-- Python `Path.stem`: the name without its suffix. -/
def pyStem (name : FileName) : FileName :=
  name.take (name.length - (pySuffix name).length)

/-- The `add_logo.py` / `add_logo_to_images.py` extension set (line 96 /
line 91; the image script uses its image set, same flat shape). -/
def addLogoVideoExts : List FileName :=
  [".mp4".toList, ".avi".toList, ".mov".toList, ".mkv".toList,
    ".flv".toList, ".wmv".toList, ".m4v".toList, ".webm".toList]

/-- The `extract_audio.py` line 131 / `video_to_gif.py` line 162 extension
set. -/
def audioGifVideoExts : List FileName :=
  [".mp4".toList, ".avi".toList, ".mov".toList, ".mkv".toList,
    ".webm".toList, ".flv".toList, ".wmv".toList, ".m4v".toList]

/-- The `make_video_circular.py` line 280 extension set. -/
def makeVideoCircularExts : List FileName :=
  [".mp4".toList, ".avi".toList, ".mov".toList, ".mkv".toList,
    ".webm".toList, ".flv".toList]

/-- The `make_circular.py` line 152 image extension set. -/
def makeCircularImageExts : List FileName :=
  [".png".toList, ".jpg".toList, ".jpeg".toList, ".bmp".toList,
    ".gif".toList, ".tiff".toList, ".webp".toList]

/-- Discovery of `add_logo.py` lines 98-100 (and `add_logo_to_images.py` lines 93-95):
`input_path.iterdir()` with a suffix test — direct children only. -/
def add_logo_discover (entries : List RelPath) : List RelPath :=
  entries.filter fun p =>
    p.length == 1 && suffixLowerIn addLogoVideoExts (lastComp p)

/-- Discovery of `extract_audio.py` lines 134-137: non-recursive `glob` per extension. -/
def extract_audio_discover (entries : List RelPath) : List RelPath :=
  entries.filter fun p =>
    p.length == 1 && globExtMatch audioGifVideoExts (lastComp p)

/-- Discovery of `video_to_gif.py` lines 165-168: non-recursive `glob` per extension. -/
def video_to_gif_discover (entries : List RelPath) : List RelPath :=
  entries.filter fun p =>
    p.length == 1 && globExtMatch audioGifVideoExts (lastComp p)

/-- Discovery of `make_video_circular.py` lines 283-289: non-recursive `glob`, then the
stem filter dropping names containing `circular` or `temp_`. -/
def make_video_circular_discover (entries : List RelPath) : List RelPath :=
  entries.filter fun p =>
    p.length == 1 && globExtMatch makeVideoCircularExts (lastComp p) &&
      !containsSub "circular".toList (pyStem (lastComp p)) &&
      !containsSub "temp_".toList (pyStem (lastComp p))

/-- Discovery of `make_circular.py` lines 155-161: RECURSIVE `rglob` per extension, then
the filter dropping paths whose text contains `circular`. -/
def make_circular_discover (entries : List RelPath) : List RelPath :=
  entries.filter fun p =>
    !p.isEmpty && globExtMatch makeCircularImageExts (lastComp p) &&
      !containsSub "circular".toList (List.intercalate ['/'] p)

/-- The `extract_audio.extract_audio` codec arguments per requested format
(`extract_audio.py` lines 42-95); `none` models the unsupported-format
early `False` return, reached before any invocation. -/
def audioCodecArgs (fmt : FileName) (quality : String) :
    Option (List String) :=
  let f := fmt.map Char.toLower
  if f = "mp3".toList then some ["-acodec", "libmp3lame", "-b:a", quality]
  else if f = "wav".toList then
    some ["-acodec", "pcm_s16le", "-ar", "44100", "-ac", "2"]
  else if f = "aac".toList || f = "m4a".toList then
    some ["-acodec", "aac", "-b:a", quality]
  else if f = "ogg".toList then some ["-acodec", "libvorbis", "-b:a", quality]
  else if f = "flac".toList then some ["-acodec", "flac"]
  else none

/-- Models `extract_audio` as an invocation trace plus result: one ffmpeg run for a
supported format, none for an unsupported one. -/
def extract_audio_run (run : List String → Bool) (video output : String)
    (fmt : FileName) (quality : String) : List (List String) × Bool :=
  match audioCodecArgs fmt quality with
  | none => ([], false)
  | some args =>
    let cmd := ["ffmpeg", "-i", video, "-vn"] ++ args ++ ["-y", output]
    ([cmd], run cmd)

/-- Does a `convert_video_to_gif` trace step invoke ffmpeg? -/
def isFfmpegStep : GifStep → Bool
  | GifStep.ffmpegPalettegen _ => true
  | GifStep.ffmpegPaletteuse _ => true
  | GifStep.removePalette => false

/-- C2 counterexample: `make_circular.py` discovers a file one directory
below the input directory (its `rglob` is recursive), and a successful
`convert_video_to_gif` issues two ffmpeg invocations for its one input, so
the claim that every script uses flat discovery and a single external-tool
invocation per input is false. -/
theorem flat_single_invocation_counterexample :
    (¬ ∀ p ∈ make_circular_discover [["sub".toList, "face.png".toList]],
        p.length = 1) ∧
    (convert_video_to_gif "medium" true true).1.countP isFfmpegStep = 2 := by
  constructor
  · intro hflat
    exact absurd (hflat ["sub".toList, "face.png".toList] (by decide))
      (by decide)
  · decide

/-- C2 (amended): the four scripts `add_logo`, `add_logo_to_images`,
`extract_audio`, `video_to_gif` and also `make_video_circular` discover
inputs non-recursively (every discovered path is a direct child of the
input directory), while `make_circular` discovers recursively (it finds a
file in a subdirectory); per input, the logo scripts issue exactly one
external-tool invocation, `extract_audio` issues at most one (exactly one
for the default mp3 format), and `video_to_gif` issues two. -/
theorem discovery_shape_and_invocation_counts (run : List String → Bool)
    (v l o pos : String) (margin : Int) (scale : String)
    (entries : List RelPath) (p : RelPath) (fmt : FileName)
    (quality output : String) (pass2 : Bool) :
    (p ∈ add_logo_discover entries → p.length = 1) ∧
    (p ∈ extract_audio_discover entries → p.length = 1) ∧
    (p ∈ video_to_gif_discover entries → p.length = 1) ∧
    (p ∈ make_video_circular_discover entries → p.length = 1) ∧
    ["sub".toList, "face.png".toList] ∈
      make_circular_discover [["sub".toList, "face.png".toList]] ∧
    (add_logo_to_video run v l o pos margin scale).1.length = 1 ∧
    (add_logo_to_image run v l o pos margin scale).1.length = 1 ∧
    (extract_audio_run run v output fmt quality).1.length ≤ 1 ∧
    (extract_audio_run run v output "mp3".toList quality).1.length = 1 ∧
    (convert_video_to_gif quality true pass2).1.countP isFfmpegStep = 2 := by
  refine ⟨?_, ?_, ?_, ?_, by decide, rfl, rfl, ?_, rfl, ?_⟩
  · intro hp
    have := (List.mem_filter.mp hp).2
    simp only [Bool.and_eq_true, beq_iff_eq] at this
    exact this.1
  · intro hp
    have := (List.mem_filter.mp hp).2
    simp only [Bool.and_eq_true, beq_iff_eq] at this
    exact this.1
  · intro hp
    have := (List.mem_filter.mp hp).2
    simp only [Bool.and_eq_true, beq_iff_eq] at this
    exact this.1
  · intro hp
    have := (List.mem_filter.mp hp).2
    simp only [Bool.and_eq_true, beq_iff_eq] at this
    exact this.1.1.1
  · unfold extract_audio_run
    cases audioCodecArgs fmt quality <;> simp
  · unfold convert_video_to_gif
    simp [isFfmpegStep]

/-- Witness for C2 (amended) at concrete inputs. -/
theorem discovery_shape_and_invocation_counts_witness :
    (["a.mp4".toList] ∈ add_logo_discover [["a.mp4".toList]] →
      (["a.mp4".toList] : RelPath).length = 1) ∧
    (["a.mp4".toList] ∈ extract_audio_discover [["a.mp4".toList]] →
      (["a.mp4".toList] : RelPath).length = 1) ∧
    (["a.mp4".toList] ∈ video_to_gif_discover [["a.mp4".toList]] →
      (["a.mp4".toList] : RelPath).length = 1) ∧
    (["a.mp4".toList] ∈ make_video_circular_discover [["a.mp4".toList]] →
      (["a.mp4".toList] : RelPath).length = 1) ∧
    ["sub".toList, "face.png".toList] ∈
      make_circular_discover [["sub".toList, "face.png".toList]] ∧
    (add_logo_to_video (fun _ => true) "v" "l" "o" "top-right" 10
      "0.15").1.length = 1 ∧
    (add_logo_to_image (fun _ => true) "v" "l" "o" "top-right" 10
      "0.15").1.length = 1 ∧
    (extract_audio_run (fun _ => true) "v" "o" "mp3".toList
      "192k").1.length ≤ 1 ∧
    (extract_audio_run (fun _ => true) "v" "o" "mp3".toList
      "192k").1.length = 1 ∧
    (convert_video_to_gif "medium" true true).1.countP isFfmpegStep = 2 :=
  discovery_shape_and_invocation_counts (fun _ => true) "v" "l" "o"
    "top-right" 10 "0.15" [["a.mp4".toList]] ["a.mp4".toList]
    "mp3".toList "medium" "o" true

end InstaVideos
